import Mathlib

/-!
Verification of the memocare reminder scheduling and object-matching logic.

Time model: JavaScript `Date` instants are embedded as natural numbers
counting milliseconds since a fixed epoch, with the epoch placed at a
Sunday midnight (so `getDay t = 0` means Sunday, `1` means Monday, ...,
matching `Date.prototype.getDay`).  The embedding assumes a fixed-offset
timezone (no DST), so one calendar day is exactly 86400000 ms; `setHours`
and `setDate` then act by plain arithmetic exactly as the source's mutating
calls do.  Concrete scenario dates are mapped to day numbers with the same
weekday: day 3 stands for 2025-01-01 (a Wednesday), day 8 for any Monday.
-/

namespace Memocare

def msPerSecond : Nat := 1000

def msPerMinute : Nat := 60 * 1000

def msPerHour : Nat := 60 * 60 * 1000

def msPerDay : Nat := 24 * 60 * 60 * 1000

/-- `Date.prototype.getHours` (hour of day, 0..23). -/
def getHours (t : Nat) : Nat := t / msPerHour % 24

/-- `Date.prototype.getMinutes`. -/
def getMinutes (t : Nat) : Nat := t / msPerMinute % 60

/-- `Date.prototype.getSeconds`. -/
def getSeconds (t : Nat) : Nat := t / msPerSecond % 60

/-- `Date.prototype.getMilliseconds`. -/
def getMilliseconds (t : Nat) : Nat := t % 1000

/-- Absolute day number of an instant (days since the epoch). -/
def dayNumber (t : Nat) : Nat := t / msPerDay

/-- `Date.prototype.getDay`: weekday, 0 = Sunday ... 6 = Saturday. -/
def getDay (t : Nat) : Nat := dayNumber t % 7

/-- `d.setHours(h, m, s, ms)`: keep the calendar day, replace the
time-of-day fields (normalising an overflowing hour into the next day,
as JS does). -/
def setHours (t h m s ms : Nat) : Nat :=
  dayNumber t * msPerDay + h * msPerHour + m * msPerMinute + s * msPerSecond + ms

/-- `d.setDate(d.getDate() + n)`: advance `n` calendar days, keeping the
time of day. -/
def addDays (t d : Nat) : Nat := t + d * msPerDay

/-! Recurrence calculator, translated from `handleSubmit` in
`src/unnamed/part_005` (lines 75-97).  Each schedule string gets the same
date arithmetic the source performs on a copy of `now`. -/

/-- `schedule === 'hourly'`: `nextRun.setHours(nextRun.getHours() + 1, 0, 0, 0)`. -/
def hourlyNext (now : Nat) : Nat := setHours now (getHours now + 1) 0 0 0

/-- The `daily` computation with the source's literal trigger time `(9, 0)`
abstracted into parameters `h`, `m`:
`nextRun.setHours(h, m, 0, 0); if (nextRun <= now) nextRun.setDate(nextRun.getDate() + 1)`. -/
def dailyAtNext (h m now : Nat) : Nat :=
  let r := setHours now h m 0 0
  if r ≤ now then addDays r 1 else r

/-- `schedule === 'daily'`: the source instantiates the daily rule at 9:00. -/
def dailyNext (now : Nat) : Nat := dailyAtNext 9 0 now

/-- `schedule === 'weekly'` (Monday 9:00):
`nextRun.setHours(9,0,0,0); const dayOfWeek = nextRun.getDay();
const daysUntilMonday = dayOfWeek === 0 ? 1 : (8 - dayOfWeek) % 7;
if (dayOfWeek === 1 && nextRun <= now) nextRun.setDate(nextRun.getDate() + 7);
else if (dayOfWeek !== 1) nextRun.setDate(nextRun.getDate() + daysUntilMonday)`. -/
def weeklyNext (now : Nat) : Nat :=
  let r := setHours now 9 0 0 0
  let dayOfWeek := getDay r
  let daysUntilMonday := if dayOfWeek = 0 then 1 else (8 - dayOfWeek) % 7
  if dayOfWeek = 1 ∧ r ≤ now then addDays r 7
  else if dayOfWeek ≠ 1 then addDays r daysUntilMonday
  else r

/-- The `else` fallback: `nextRun.setDate(nextRun.getDate() + 1)`. -/
def fallbackNext (now : Nat) : Nat := addDays now 1

/-- The non-`custom` branch of `handleSubmit`'s schedule dispatch: a total
function of the schedule string and the captured `now` (the source throws
nowhere on this path). -/
def computeNextRun (schedule : String) (now : Nat) : Nat :=
  if schedule = "hourly" then hourlyNext now
  else if schedule = "daily" then dailyNext now
  else if schedule = "weekly" then weeklyNext now
  else fallbackNext now

/-- The hourly rule lands exactly on the start of the hour after `now`. -/
theorem hourlyNext_eq_next_hour_start (now : Nat) :
    hourlyNext now = (now / msPerHour + 1) * msPerHour := by
  unfold hourlyNext setHours getHours dayNumber msPerDay msPerHour msPerMinute msPerSecond
  omega

theorem lt_hourlyNext (now : Nat) : now < hourlyNext now := by
  rw [hourlyNext_eq_next_hour_start]
  unfold msPerHour
  omega

theorem lt_dailyAtNext (h m now : Nat) : now < dailyAtNext h m now := by
  unfold dailyAtNext setHours addDays dayNumber msPerDay msPerHour msPerMinute msPerSecond
  dsimp only
  split <;> omega

theorem lt_weeklyNext (now : Nat) : now < weeklyNext now := by
  unfold weeklyNext setHours addDays getDay dayNumber msPerDay msPerHour msPerMinute msPerSecond
  dsimp only
  split <;> (try split) <;> (try split) <;> (try split) <;> (try split) <;> omega

/-- C1: for every recurrence kind in the dispatch (hourly, daily, weekly)
and for the unknown-kind fallback, and for every reference time `now`, the
computed next run time is strictly greater than `now`. -/
theorem C1_computeNextRun_gt_now (schedule : String) (now : Nat) :
    now < computeNextRun schedule now := by
  unfold computeNextRun
  split
  · exact lt_hourlyNext now
  · split
    · exact lt_dailyAtNext 9 0 now
    · split
      · exact lt_weeklyNext now
      · unfold fallbackNext addDays msPerDay
        omega

/-- C2: hourly — the next run is the start of the hour immediately after
`now`: minutes, seconds and milliseconds are zero and the instant is `now`'s
day at hour `getHours now + 1` (an overflowing hour 24 denoting midnight of
the next day, exactly as JS `setHours` normalises it); scenario:
2025-01-01T10:37 (a Wednesday, model day 3) yields 2025-01-01T11:00. -/
theorem C2_hourly_next_hour_start (now : Nat) :
    hourlyNext now = (now / msPerHour + 1) * msPerHour ∧
    hourlyNext now = dayNumber now * msPerDay + (getHours now + 1) * msPerHour ∧
    getMinutes (hourlyNext now) = 0 ∧
    getSeconds (hourlyNext now) = 0 ∧
    getMilliseconds (hourlyNext now) = 0 ∧
    getHours (hourlyNext now) = (getHours now + 1) % 24 ∧
    hourlyNext (3 * msPerDay + 10 * msPerHour + 37 * msPerMinute)
      = 3 * msPerDay + 11 * msPerHour := by
  refine ⟨hourlyNext_eq_next_hour_start now, ?_, ?_, ?_, ?_, ?_, by rfl⟩
  · unfold hourlyNext setHours getHours dayNumber msPerDay msPerHour msPerMinute msPerSecond
    omega
  · unfold getMinutes hourlyNext setHours getHours dayNumber msPerDay msPerHour msPerMinute msPerSecond
    omega
  · unfold getSeconds hourlyNext setHours getHours dayNumber msPerDay msPerHour msPerMinute msPerSecond
    omega
  · unfold getMilliseconds hourlyNext setHours getHours dayNumber msPerDay msPerHour msPerMinute msPerSecond
    omega
  · unfold hourlyNext setHours dayNumber msPerDay msPerHour msPerMinute msPerSecond
    unfold getHours msPerHour
    omega

/-- C3: daily-at(h, m) — the next run is today at `h:m:00.000` if that
instant is strictly after `now`, otherwise tomorrow at `h:m:00.000`; it is
the earliest instant strictly after `now` whose time of day is `h:m:00.000`.
The source instantiates `(h, m) = (9, 0)`; scenarios: 2025-01-01T07:00 ↦
2025-01-01T09:00 and 2025-01-01T09:30 ↦ 2025-01-02T09:00 (model days 3, 4). -/
theorem C3_dailyAt_spec (h m now : Nat) (hh : h < 24) (hm : m < 60) :
    dailyNext now = dailyAtNext 9 0 now ∧
    (now < setHours now h m 0 0 → dailyAtNext h m now = setHours now h m 0 0) ∧
    (setHours now h m 0 0 ≤ now →
      dailyAtNext h m now = setHours now h m 0 0 + msPerDay) ∧
    now < dailyAtNext h m now ∧
    dailyAtNext h m now % msPerDay = h * msPerHour + m * msPerMinute ∧
    (∀ t, now < t → t % msPerDay = h * msPerHour + m * msPerMinute →
      dailyAtNext h m now ≤ t) ∧
    dailyAtNext 9 0 (3 * msPerDay + 7 * msPerHour) = 3 * msPerDay + 9 * msPerHour ∧
    dailyAtNext 9 0 (3 * msPerDay + 9 * msPerHour + 30 * msPerMinute)
      = 4 * msPerDay + 9 * msPerHour := by
  refine ⟨rfl, ?_, ?_, lt_dailyAtNext h m now, ?_, ?_, by rfl, by rfl⟩
  · intro hlt
    unfold dailyAtNext
    dsimp only
    rw [if_neg (by omega)]
  · intro hle
    unfold dailyAtNext addDays
    dsimp only
    rw [if_pos hle]
    omega
  · unfold dailyAtNext setHours addDays dayNumber msPerDay msPerHour msPerMinute msPerSecond
    dsimp only
    split <;> omega
  · intro t ht htod
    unfold msPerDay msPerHour msPerMinute at htod
    unfold dailyAtNext setHours addDays dayNumber msPerDay msPerHour msPerMinute msPerSecond
    dsimp only
    split <;> omega

/-- C4: weekly (the source's only weekly kind is Monday at 9:00) — the next
run is the next occurrence of Monday at 9:00:00.000 strictly after `now`: on
a Monday before 9:00 it is today at 9:00; on a Monday at or after 9:00 it is
exactly 7 days later at 9:00; otherwise it is today's 9:00 plus the day-delta
to the next Monday. The result always falls on a Monday at 9:00 and is the
earliest such instant strictly after `now`; scenario: a Monday at 10:00
(model day 8) yields the following Monday at 9:00 (day 15). -/
theorem C4_weekly_spec (now : Nat) :
    (getDay now = 1 → now < setHours now 9 0 0 0 →
      weeklyNext now = setHours now 9 0 0 0) ∧
    (getDay now = 1 → setHours now 9 0 0 0 ≤ now →
      weeklyNext now = setHours now 9 0 0 0 + 7 * msPerDay) ∧
    (getDay now ≠ 1 →
      weeklyNext now = setHours now 9 0 0 0 +
        (if getDay now = 0 then 1 else (8 - getDay now) % 7) * msPerDay) ∧
    now < weeklyNext now ∧
    getDay (weeklyNext now) = 1 ∧
    weeklyNext now % msPerDay = 9 * msPerHour ∧
    (∀ t, now < t → getDay t = 1 → t % msPerDay = 9 * msPerHour →
      weeklyNext now ≤ t) ∧
    weeklyNext (8 * msPerDay + 10 * msPerHour) = 15 * msPerDay + 9 * msPerHour := by
  refine ⟨?_, ?_, ?_, lt_weeklyNext now, ?_, ?_, ?_, by rfl⟩
  · intro h1 h2
    unfold getDay dayNumber msPerDay at h1
    unfold setHours dayNumber msPerDay msPerHour msPerMinute msPerSecond at h2
    unfold weeklyNext getDay setHours addDays dayNumber msPerDay msPerHour msPerMinute msPerSecond
    dsimp only
    split <;> (try split) <;> (try split) <;> (try split) <;> (try split) <;> omega
  · intro h1 h2
    unfold getDay dayNumber msPerDay at h1
    unfold setHours dayNumber msPerDay msPerHour msPerMinute msPerSecond at h2
    unfold weeklyNext getDay setHours addDays dayNumber msPerDay msPerHour msPerMinute msPerSecond
    dsimp only
    split <;> (try split) <;> (try split) <;> (try split) <;> (try split) <;> omega
  · intro h1
    unfold getDay dayNumber msPerDay at h1
    unfold weeklyNext getDay setHours addDays dayNumber msPerDay msPerHour msPerMinute msPerSecond
    dsimp only
    split <;> (try split) <;> (try split) <;> (try split) <;> (try split) <;> omega
  · unfold weeklyNext getDay setHours addDays dayNumber msPerDay msPerHour msPerMinute msPerSecond
    dsimp only
    split <;> (try split) <;> (try split) <;> (try split) <;> (try split) <;> omega
  · unfold weeklyNext getDay setHours addDays dayNumber msPerDay msPerHour msPerMinute msPerSecond
    dsimp only
    split <;> (try split) <;> (try split) <;> (try split) <;> (try split) <;> omega
  · intro t ht h1 htod
    unfold getDay dayNumber msPerDay at h1
    unfold msPerDay msPerHour at htod
    unfold weeklyNext getDay setHours addDays dayNumber msPerDay msPerHour msPerMinute msPerSecond
    dsimp only
    split <;> (try split) <;> (try split) <;> (try split) <;> (try split) <;> omega

/-- Witness for C3 at the concrete input of the daily-before-trigger scenario. -/
theorem C3_dailyAt_spec_witness :
    (9 < 24) ∧ (0 < 60) ∧
    dailyAtNext 9 0 (3 * msPerDay + 7 * msPerHour) = 3 * msPerDay + 9 * msPerHour :=
  ⟨by decide, by decide,
    (C3_dailyAt_spec 9 0 (3 * msPerDay + 7 * msPerHour)
      (by decide) (by decide)).2.2.2.2.2.2.1⟩

/-- Witness for C4 at the Monday-past-9:00 scenario input. -/
theorem C4_weekly_spec_witness :
    getDay (8 * msPerDay + 10 * msPerHour) = 1 ∧
    setHours (8 * msPerDay + 10 * msPerHour) 9 0 0 0 ≤ 8 * msPerDay + 10 * msPerHour ∧
    weeklyNext (8 * msPerDay + 10 * msPerHour)
      = setHours (8 * msPerDay + 10 * msPerHour) 9 0 0 0 + 7 * msPerDay :=
  ⟨by rfl, by decide,
    (C4_weekly_spec (8 * msPerDay + 10 * msPerHour)).2.1 (by rfl) (by decide)⟩

/-- C5: a schedule string matching none of the known kinds falls through to
the `else` branch and the result is exactly `now` plus one calendar day; the
computation is a total function, so no fault is raised. -/
theorem C5_unknown_schedule_fallback (schedule : String) (now : Nat)
    (h1 : schedule ≠ "hourly") (h2 : schedule ≠ "daily") (h3 : schedule ≠ "weekly") :
    computeNextRun schedule now = now + msPerDay := by
  unfold computeNextRun fallbackNext addDays
  rw [if_neg h1, if_neg h2, if_neg h3]
  omega

/-- Witness for C5 at the concrete unknown kind "monthly". -/
theorem C5_unknown_schedule_fallback_witness :
    ("monthly" ≠ "hourly") ∧ ("monthly" ≠ "daily") ∧ ("monthly" ≠ "weekly") ∧
    computeNextRun "monthly" 0 = 0 + msPerDay :=
  ⟨by decide, by decide, by decide,
    C5_unknown_schedule_fallback "monthly" 0 (by decide) (by decide) (by decide)⟩

/-! Reminder scheduler, translated from the server scheduler module (the
second document concatenated in
`src/client/src/components/AudioPermissionBanner.tsx`, lines 1012-1112):
`calculateNextRun`, the per-minute due query, and the per-reminder updates
performed by the cron tick.  These realise the spec's Due-Item Store
interface (`listDue` / `markFired`, §4.2) and the Scheduler Loop outcome
(§4.3). -/

/-- A row of the `reminders` table, restricted to the fields the scheduler
reads and writes. -/
structure Reminder where
  id : Nat
  user_id : Nat
  title : String
  type : String
  schedule_cron : String
  next_run_at : Nat
  active : Bool
deriving DecidableEq

/-- `calculateNextRun(scheduleCron, currentTime)` (scheduler module lines
1021-1052): dispatches on the stored cron strings; each case performs the
same date arithmetic as the corresponding branch of `handleSubmit`, so the
per-case embeddings are shared. -/
def calculateNextRun (scheduleCron : String) (currentTime : Nat) : Nat :=
  if scheduleCron = "0 * * * *" then hourlyNext currentTime
  else if scheduleCron = "0 9 * * *" then dailyNext currentTime
  else if scheduleCron = "0 9 * * 1" then weeklyNext currentTime
  else fallbackNext currentTime

/-- The tick's due query (scheduler module lines 1066-1074):
`select().from(reminders).where(and(eq(active, true), lte(next_run_at, now)))`
— the spec's `listDue(asOf)`. -/
def listDue (rows : List Reminder) (now : Nat) : List Reminder :=
  rows.filter fun r => r.active && decide (r.next_run_at ≤ now)

/-- A drizzle `update(reminders).set(...).where(eq(reminders.id, i))`:
apply the field update to every row with the given id. -/
def updateById (rows : List Reminder) (i : Nat) (f : Reminder → Reminder) :
    List Reminder :=
  rows.map fun r => if r.id = i then f r else r

/-- The tick's per-reminder persistence step (scheduler module lines
1090-1104), the spec's `markFired(id, newNextRunAt | null)`:
`set({active: false})` when the outcome is null, `set({next_run_at: t})`
otherwise. -/
def markFired (rows : List Reminder) (i : Nat) (newNextRunAt : Option Nat) :
    List Reminder :=
  match newNextRunAt with
  | none => updateById rows i fun r => { r with active := false }
  | some t => updateById rows i fun r => { r with next_run_at := t }

/-- The tick's outcome for one due reminder (scheduler module lines
1090-1104): a `schedule_cron` of `'once'` or `'custom'` is deactivated
(null), any other schedule is rescheduled to
`calculateNextRun(schedule_cron, now)`. -/
def fireOutcome (reminder : Reminder) (now : Nat) : Option Nat :=
  if reminder.schedule_cron = "once" ∨ reminder.schedule_cron = "custom" then none
  else some (calculateNextRun reminder.schedule_cron now)

theorem lt_calculateNextRun (s : String) (now : Nat) :
    now < calculateNextRun s now := by
  unfold calculateNextRun
  split
  · exact lt_hourlyNext now
  · split
    · exact lt_dailyAtNext 9 0 now
    · split
      · exact lt_weeklyNext now
      · unfold fallbackNext addDays msPerDay
        omega

/-- C6: `markFired(id, newNextRunAt)` with a non-null time sets that row's
`next_run_at` and leaves `active` (and every other field) as it was — in
particular an active row stays active; `markFired(id, null)` sets `active`
to false and leaves `next_run_at` (and every other field) unchanged; rows
with a different id are untouched; and the once-schedule outcome is null, so
a `once` reminder after firing is deactivated with an unchanged
`next_run_at`. -/
theorem C6_markFired_spec (rows : List Reminder) (i k : Nat)
    (nn : Option Nat) (old upd : Reminder)
    (hold : rows[k]? = some old)
    (hupd : (markFired rows i nn)[k]? = some upd) :
    (old.id ≠ i → upd = old) ∧
    (old.id = i → ∀ t, nn = some t →
      upd.next_run_at = t ∧ upd.active = old.active ∧ upd.id = old.id ∧
      upd.user_id = old.user_id ∧ upd.title = old.title ∧
      upd.type = old.type ∧ upd.schedule_cron = old.schedule_cron) ∧
    (old.id = i → nn = none →
      upd.active = false ∧ upd.next_run_at = old.next_run_at ∧ upd.id = old.id ∧
      upd.user_id = old.user_id ∧ upd.title = old.title ∧
      upd.type = old.type ∧ upd.schedule_cron = old.schedule_cron) ∧
    (old.schedule_cron = "once" → ∀ now, fireOutcome old now = none) := by
  have honce : old.schedule_cron = "once" → ∀ now, fireOutcome old now = none := by
    intro h now
    unfold fireOutcome
    rw [if_pos (Or.inl h)]
  cases nn with
  | none =>
    unfold markFired updateById at hupd
    rw [List.getElem?_map, hold] at hupd
    simp only [Option.map_some', Option.some.injEq] at hupd
    refine ⟨?_, ?_, ?_, honce⟩
    · intro hne
      rw [if_neg hne] at hupd
      exact hupd.symm
    · intro _ t hsome
      exact Option.noConfusion hsome
    · intro heq _
      rw [if_pos heq] at hupd
      subst hupd
      exact ⟨rfl, rfl, rfl, rfl, rfl, rfl, rfl⟩
  | some t0 =>
    unfold markFired updateById at hupd
    rw [List.getElem?_map, hold] at hupd
    simp only [Option.map_some', Option.some.injEq] at hupd
    refine ⟨?_, ?_, ?_, honce⟩
    · intro hne
      rw [if_neg hne] at hupd
      exact hupd.symm
    · intro heq t hsome
      rw [if_pos heq] at hupd
      subst hupd
      cases Option.some.inj hsome
      exact ⟨rfl, rfl, rfl, rfl, rfl, rfl, rfl⟩
    · intro _ hnone
      exact Option.noConfusion hnone

/-- Witness for C6: a fired `once` reminder is deactivated in place with its
`next_run_at` kept. -/
theorem C6_markFired_spec_witness :
    (([⟨1, 7, "meds", "medication", "once", 5, true⟩] : List Reminder)[0]?
      = some ⟨1, 7, "meds", "medication", "once", 5, true⟩) ∧
    ((markFired [⟨1, 7, "meds", "medication", "once", 5, true⟩] 1 none)[0]?
      = some ⟨1, 7, "meds", "medication", "once", 5, false⟩) ∧
    (⟨1, 7, "meds", "medication", "once", 5, false⟩ : Reminder).active = false ∧
    (⟨1, 7, "meds", "medication", "once", 5, false⟩ : Reminder).next_run_at = 5 ∧
    fireOutcome ⟨1, 7, "meds", "medication", "once", 5, true⟩ 0 = none := by
  have h := C6_markFired_spec [⟨1, 7, "meds", "medication", "once", 5, true⟩] 1 0 none
    ⟨1, 7, "meds", "medication", "once", 5, true⟩
    ⟨1, 7, "meds", "medication", "once", 5, false⟩ rfl rfl
  exact ⟨rfl, rfl, (h.2.2.1 rfl rfl).1, (h.2.2.1 rfl rfl).2.1, h.2.2.2 rfl 0⟩

/-- C7: the due query returns exactly the rows with `active = true` and
`next_run_at ≤ now`; the bound is inclusive (`next_run_at = now` is
returned) and an inactive row is never returned whatever its
`next_run_at`. -/
theorem C7_listDue_spec (rows : List Reminder) (asOf : Nat)
    (reminder : Reminder) :
    (reminder ∈ listDue rows asOf ↔
      reminder ∈ rows ∧ reminder.active = true ∧ reminder.next_run_at ≤ asOf) ∧
    (reminder ∈ rows → reminder.active = true → reminder.next_run_at = asOf →
      reminder ∈ listDue rows asOf) ∧
    (reminder.active = false → reminder ∉ listDue rows asOf) := by
  have hmem : reminder ∈ listDue rows asOf ↔
      reminder ∈ rows ∧ reminder.active = true ∧ reminder.next_run_at ≤ asOf := by
    unfold listDue
    rw [List.mem_filter]
    simp only [Bool.and_eq_true, decide_eq_true_eq]
  refine ⟨hmem, ?_, ?_⟩
  · intro hs ha he
    exact hmem.mpr ⟨hs, ha, le_of_eq he⟩
  · intro hfalse hin
    have := (hmem.mp hin).2.1
    rw [hfalse] at this
    exact Bool.false_ne_true this

/-- Witness for C7: an active row whose `next_run_at` equals `now` is
listed, and an inactive overdue row is not. -/
theorem C7_listDue_spec_witness :
    ((⟨1, 7, "a", "task", "0 * * * *", 7, true⟩ : Reminder) ∈
      ([⟨1, 7, "a", "task", "0 * * * *", 7, true⟩] : List Reminder)) ∧
    ((⟨1, 7, "a", "task", "0 * * * *", 7, true⟩ : Reminder).active = true) ∧
    ((⟨1, 7, "a", "task", "0 * * * *", 7, true⟩ : Reminder).next_run_at = 7) ∧
    (⟨1, 7, "a", "task", "0 * * * *", 7, true⟩ : Reminder) ∈
      listDue [⟨1, 7, "a", "task", "0 * * * *", 7, true⟩] 7 ∧
    ((⟨2, 7, "b", "task", "0 9 * * *", 0, false⟩ : Reminder).active = false) ∧
    (⟨2, 7, "b", "task", "0 9 * * *", 0, false⟩ : Reminder) ∉
      listDue [⟨2, 7, "b", "task", "0 9 * * *", 0, false⟩] 7 := by
  refine ⟨by decide, rfl, rfl, ?_, rfl, ?_⟩
  · exact (C7_listDue_spec [⟨1, 7, "a", "task", "0 * * * *", 7, true⟩] 7
      ⟨1, 7, "a", "task", "0 * * * *", 7, true⟩).2.1 (by decide) rfl rfl
  · exact (C7_listDue_spec [⟨2, 7, "b", "task", "0 9 * * *", 0, false⟩] 7
      ⟨2, 7, "b", "task", "0 9 * * *", 0, false⟩).2.2 rfl

/-- C8: the tick's at-most-one-fire property — after a due reminder is
processed, i.e. `markFired(id, fireOutcome(reminder, now))` is persisted
(which either deactivates the row or advances its `next_run_at` to
`calculateNextRun(...)`, always strictly past `now`), a second `listDue`
query at the same `now` returns no row with that id.  The due query is
embedded as a pure function of the rows, so re-reading an unchanged store
yields the same set by definition; the non-trivial residue proved here is
that the query is stable — filtering its own result again returns the same
rows. -/
theorem C8_tick_spec (rows : List Reminder) (reminder : Reminder) (now : Nat) :
    (∀ j ∈ listDue (markFired rows reminder.id (fireOutcome reminder now)) now,
      j.id ≠ reminder.id) ∧
    listDue (listDue rows now) now = listDue rows now := by
  constructor
  · intro j hj hji
    have hadv : fireOutcome reminder now = none ∨
        ∃ t, fireOutcome reminder now = some t ∧ now < t := by
      unfold fireOutcome
      split
      · exact Or.inl rfl
      · exact Or.inr ⟨_, rfl, lt_calculateNextRun _ now⟩
    unfold listDue at hj
    rw [List.mem_filter] at hj
    obtain ⟨hjmem, hjdue⟩ := hj
    simp only [Bool.and_eq_true, decide_eq_true_eq] at hjdue
    rcases hadv with hnone | ⟨t, hsome, htlt⟩
    · rw [hnone] at hjmem
      unfold markFired updateById at hjmem
      rw [List.mem_map] at hjmem
      obtain ⟨a, _, ha⟩ := hjmem
      by_cases hai : a.id = reminder.id
      · rw [if_pos hai] at ha
        rw [← ha] at hjdue
        dsimp only at hjdue
        exact Bool.noConfusion hjdue.1
      · rw [if_neg hai] at ha
        rw [← ha] at hji
        exact hai hji
    · rw [hsome] at hjmem
      unfold markFired updateById at hjmem
      rw [List.mem_map] at hjmem
      obtain ⟨a, _, ha⟩ := hjmem
      by_cases hai : a.id = reminder.id
      · rw [if_pos hai] at ha
        rw [← ha] at hjdue
        dsimp only at hjdue
        omega
      · rw [if_neg hai] at ha
        rw [← ha] at hji
        exact hai hji
  · unfold listDue
    rw [List.filter_filter]
    congr 1
    funext a
    rw [Bool.and_self]

/-- Witness for C8: processing the hourly reminder advances it past
`now = 5`, and the re-read still returns only the other due row, whose id
differs from the fired one; the re-filtering of that read is stable. -/
theorem C8_tick_spec_witness :
    (2 : Nat) ≠ 1 ∧
    listDue (listDue [⟨1, 7, "a", "task", "0 * * * *", 3, true⟩,
        ⟨2, 7, "b", "task", "0 9 * * *", 0, true⟩] 5) 5
      = listDue [⟨1, 7, "a", "task", "0 * * * *", 3, true⟩,
        ⟨2, 7, "b", "task", "0 9 * * *", 0, true⟩] 5 := by
  have h := C8_tick_spec
    [⟨1, 7, "a", "task", "0 * * * *", 3, true⟩,
     ⟨2, 7, "b", "task", "0 9 * * *", 0, true⟩]
    ⟨1, 7, "a", "task", "0 * * * *", 3, true⟩ 5
  exact ⟨h.1 ⟨2, 7, "b", "task", "0 9 * * *", 0, true⟩ (by decide), h.2⟩

/-! Object-signature similarity and matching, translated from
`src/unnamed/part_006` (`calculateSimilarity`, lines 70-81, and
`findMatches`, lines 84-98).  The JS numbers on this path are exact
rational values (integer counts, division, and the literals 0.7, 0.3 and
0.9), so they are embedded as ℚ.  The signature's `objects` array is not
read by either function and is omitted from the embedded record. -/

structure ObjectSignature where
  dominantObjects : List String
  objectCount : Int
deriving DecidableEq

/-- `calculateSimilarity(sig1, sig2)`:
`shared = sig1.dominantObjects.filter(obj => sig2.dominantObjects.includes(obj))`,
`total = new Set([...sig1.dominantObjects, ...sig2.dominantObjects]).size`,
`if (total === 0) return 0`, then
`(shared.length / total) * 0.7 + (1 - |c1 - c2| / Math.max(c1, c2, 1)) * 0.3`. -/
def calculateSimilarity (sig1 sig2 : ObjectSignature) : ℚ :=
  let shared := sig1.dominantObjects.filter fun obj =>
    sig2.dominantObjects.contains obj
  let total := ((sig1.dominantObjects ++ sig2.dominantObjects).dedup).length
  if total = 0 then 0
  else
    let objectCountSimilarity : ℚ :=
      1 - |(sig1.objectCount : ℚ) - (sig2.objectCount : ℚ)| /
            max (max (sig1.objectCount : ℚ) (sig2.objectCount : ℚ)) 1
    let objectSimilarity : ℚ := (shared.length : ℚ) / (total : ℚ)
    objectSimilarity * (7 / 10) + objectCountSimilarity * (3 / 10)

structure StoredSignature where
  id : Nat
  signature : ObjectSignature
  userTag : String
deriving DecidableEq

structure MatchResult where
  id : Nat
  userTag : String
  confidence : ℚ
deriving DecidableEq

/-- The comparator `(a, b) => b.confidence - a.confidence`: descending
confidence. -/
def byConfidenceDesc (a b : MatchResult) : Prop := b.confidence ≤ a.confidence

instance : DecidableRel byConfidenceDesc := fun a b =>
  inferInstanceAs (Decidable (b.confidence ≤ a.confidence))

instance : IsTotal MatchResult byConfidenceDesc :=
  ⟨fun a b => le_total b.confidence a.confidence⟩

instance : IsTrans MatchResult byConfidenceDesc :=
  ⟨fun _ _ _ hab hbc => le_trans hbc hab⟩

/-- `findMatches(newSignature, storedSignatures)`: map each stored signature
to `{id, userTag, confidence}`, keep `confidence >= 0.9`, sort descending by
confidence, return the first 3. -/
def findMatches (newSignature : ObjectSignature)
    (storedSignatures : List StoredSignature) : List MatchResult :=
  let sorted := ((storedSignatures.map fun stored =>
      MatchResult.mk stored.id stored.userTag
        (calculateSimilarity newSignature stored.signature)).filter
      fun mr => decide ((9 : ℚ) / 10 ≤ mr.confidence)).insertionSort byConfidenceDesc
  sorted.take 3

theorem sharedCount_eq (a b : List String) (ha : a.Nodup) :
    (a.filter fun o => b.contains o).length = (a.toFinset ∩ b.toFinset).card := by
  rw [← List.toFinset_card_of_nodup (List.Nodup.filter _ ha), List.toFinset_filter]
  congr 1
  ext x
  rw [Finset.mem_filter, Finset.mem_inter]
  simp only [List.mem_toFinset]
  exact ⟨fun ⟨hxa, hxb⟩ => ⟨hxa, List.elem_iff.mp hxb⟩,
    fun ⟨hxa, hxb⟩ => ⟨hxa, List.elem_iff.mpr hxb⟩⟩

theorem totalCount_eq (a b : List String) :
    ((a ++ b).dedup).length = (a.toFinset ∪ b.toFinset).card := by
  rw [← List.card_toFinset, List.toFinset_append]

/-- Closed form of `calculateSimilarity` through finsets of class labels
(needs the first argument's labels duplicate-free). -/
theorem calculateSimilarity_eq (s1 s2 : ObjectSignature)
    (h1 : s1.dominantObjects.Nodup) :
    calculateSimilarity s1 s2 =
      if (s1.dominantObjects.toFinset ∪ s2.dominantObjects.toFinset).card = 0 then 0
      else
        ((s1.dominantObjects.toFinset ∩ s2.dominantObjects.toFinset).card : ℚ) /
            ((s1.dominantObjects.toFinset ∪ s2.dominantObjects.toFinset).card : ℚ) *
            (7 / 10) +
          (1 - |(s1.objectCount : ℚ) - (s2.objectCount : ℚ)| /
              max (max (s1.objectCount : ℚ) (s2.objectCount : ℚ)) 1) *
            (3 / 10) := by
  unfold calculateSimilarity
  dsimp only
  rw [sharedCount_eq _ _ h1, totalCount_eq]

/-- C9: `findMatches` returns at most 3 matches, every returned match has
confidence ≥ 0.9, and the returned list is sorted in nonincreasing order of
confidence. -/
theorem C9_findMatches_spec (newSig : ObjectSignature)
    (stored : List StoredSignature) :
    (findMatches newSig stored).length ≤ 3 ∧
    (∀ mr ∈ findMatches newSig stored, (9 : ℚ) / 10 ≤ mr.confidence) ∧
    List.Sorted byConfidenceDesc (findMatches newSig stored) := by
  unfold findMatches
  dsimp only
  refine ⟨List.length_take_le 3 _, ?_, ?_⟩
  · intro mr hmr
    have h1 := List.mem_of_mem_take hmr
    have h2 := (List.perm_insertionSort byConfidenceDesc _).mem_iff.mp h1
    have h3 := List.mem_filter.mp h2
    exact of_decide_eq_true h3.2
  · exact List.Pairwise.sublist (List.take_sublist 3 _)
      (List.sorted_insertionSort byConfidenceDesc _)

/-- Witness for C9: a perfectly matching stored signature is returned and
its confidence clears the 0.9 threshold. -/
theorem C9_findMatches_spec_witness :
    (⟨5, "cup", 1⟩ : MatchResult) ∈
      findMatches ⟨["cup"], 1⟩ [⟨5, ⟨["cup"], 1⟩, "cup"⟩] ∧
    (9 : ℚ) / 10 ≤ (⟨5, "cup", 1⟩ : MatchResult).confidence := by
  have hsim : calculateSimilarity ⟨["cup"], 1⟩ ⟨["cup"], 1⟩ = 1 := by
    simp [calculateSimilarity, List.dedup]
    norm_num
  have hm : (⟨5, "cup", 1⟩ : MatchResult) ∈
      findMatches ⟨["cup"], 1⟩ [⟨5, ⟨["cup"], 1⟩, "cup"⟩] := by
    simp [findMatches, hsim, List.insertionSort, List.orderedInsert]
    norm_num
  exact ⟨hm, (C9_findMatches_spec ⟨["cup"], 1⟩ [⟨5, ⟨["cup"], 1⟩, "cup"⟩]).2.1 _ hm⟩

/-- C10: for signatures with duplicate-free label lists and nonnegative
counts, `calculateSimilarity` lies in [0, 1], is 0 when both label lists are
empty, and is symmetric. -/
theorem C10_calculateSimilarity_spec (s1 s2 : ObjectSignature)
    (h1 : s1.dominantObjects.Nodup) (h2 : s2.dominantObjects.Nodup)
    (hc1 : 0 ≤ s1.objectCount) (hc2 : 0 ≤ s2.objectCount) :
    0 ≤ calculateSimilarity s1 s2 ∧ calculateSimilarity s1 s2 ≤ 1 ∧
    (s1.dominantObjects = [] → s2.dominantObjects = [] →
      calculateSimilarity s1 s2 = 0) ∧
    calculateSimilarity s1 s2 = calculateSimilarity s2 s1 := by
  set x : ℚ := (s1.objectCount : ℚ) with hx
  set y : ℚ := (s2.objectCount : ℚ) with hy
  have hx0 : 0 ≤ x := by rw [hx]; exact_mod_cast hc1
  have hy0 : 0 ≤ y := by rw [hy]; exact_mod_cast hc2
  have hD1 : (1 : ℚ) ≤ max (max x y) 1 := le_max_right _ 1
  have hD0 : (0 : ℚ) < max (max x y) 1 := lt_of_lt_of_le one_pos hD1
  have habs : |x - y| ≤ max (max x y) 1 := by
    rcases le_total x y with hxy | hxy
    · rw [abs_sub_comm, abs_of_nonneg (by linarith)]
      have := le_max_right x y
      have := le_max_left (max x y) (1 : ℚ)
      linarith
    · rw [abs_of_nonneg (by linarith)]
      have := le_max_left x y
      have := le_max_left (max x y) (1 : ℚ)
      linarith
  have hq0 : 0 ≤ |x - y| / max (max x y) 1 := div_nonneg (abs_nonneg _) hD0.le
  have hq1 : |x - y| / max (max x y) 1 ≤ 1 := (div_le_one hD0).mpr habs
  have hcount0 : 0 ≤ 1 - |x - y| / max (max x y) 1 := by linarith
  have hcount1 : 1 - |x - y| / max (max x y) 1 ≤ 1 := by linarith
  refine ⟨?_, ?_, ?_, ?_⟩
  · rw [calculateSimilarity_eq s1 s2 h1]
    split
    · exact le_refl 0
    · rename_i hne
      have hd0 : (0 : ℚ) <
          ((s1.dominantObjects.toFinset ∪ s2.dominantObjects.toFinset).card : ℚ) := by
        have : 0 < (s1.dominantObjects.toFinset ∪ s2.dominantObjects.toFinset).card :=
          Nat.pos_of_ne_zero hne
        exact_mod_cast this
      have hfrac0 : 0 ≤
          ((s1.dominantObjects.toFinset ∩ s2.dominantObjects.toFinset).card : ℚ) /
            ((s1.dominantObjects.toFinset ∪ s2.dominantObjects.toFinset).card : ℚ) :=
        div_nonneg (by positivity) hd0.le
      nlinarith
  · rw [calculateSimilarity_eq s1 s2 h1]
    split
    · exact zero_le_one
    · rename_i hne
      have hd0 : (0 : ℚ) <
          ((s1.dominantObjects.toFinset ∪ s2.dominantObjects.toFinset).card : ℚ) := by
        have : 0 < (s1.dominantObjects.toFinset ∪ s2.dominantObjects.toFinset).card :=
          Nat.pos_of_ne_zero hne
        exact_mod_cast this
      have hsub : (s1.dominantObjects.toFinset ∩ s2.dominantObjects.toFinset).card ≤
          (s1.dominantObjects.toFinset ∪ s2.dominantObjects.toFinset).card :=
        Finset.card_le_card
          (le_trans Finset.inter_subset_left Finset.subset_union_left)
      have hfrac1 :
          ((s1.dominantObjects.toFinset ∩ s2.dominantObjects.toFinset).card : ℚ) /
            ((s1.dominantObjects.toFinset ∪ s2.dominantObjects.toFinset).card : ℚ) ≤ 1 := by
        rw [div_le_one hd0]
        exact_mod_cast hsub
      have hfrac0 : 0 ≤
          ((s1.dominantObjects.toFinset ∩ s2.dominantObjects.toFinset).card : ℚ) /
            ((s1.dominantObjects.toFinset ∪ s2.dominantObjects.toFinset).card : ℚ) :=
        div_nonneg (by positivity) hd0.le
      nlinarith
  · intro he1 he2
    unfold calculateSimilarity
    dsimp only
    rw [he1, he2]
    rfl
  · rw [calculateSimilarity_eq s1 s2 h1, calculateSimilarity_eq s2 s1 h2]
    rw [Finset.union_comm s2.dominantObjects.toFinset s1.dominantObjects.toFinset,
      Finset.inter_comm s2.dominantObjects.toFinset s1.dominantObjects.toFinset,
      abs_sub_comm y x, max_comm y x]

/-- Witness for C10 on a pair of concrete signatures. -/
theorem C10_calculateSimilarity_spec_witness :
    (["cup", "bowl"] : List String).Nodup ∧ (["cup"] : List String).Nodup ∧
    (0 : Int) ≤ 2 ∧ (0 : Int) ≤ 1 ∧
    calculateSimilarity ⟨["cup", "bowl"], 2⟩ ⟨["cup"], 1⟩
      = calculateSimilarity ⟨["cup"], 1⟩ ⟨["cup", "bowl"], 2⟩ :=
  ⟨by decide, by decide, by decide, by decide,
    (C10_calculateSimilarity_spec ⟨["cup", "bowl"], 2⟩ ⟨["cup"], 1⟩
      (by decide) (by decide) (by decide) (by decide)).2.2.2⟩

end Memocare
